import Mathlib

/-!
Shallow embedding of the realtime hub of `internal/realtime/realtime.go`
(package `realtime` of chat-quick-chat-server).

Sessions (`*Client` in Go) are identified by opaque `SessionId` handles.
Go maps are modelled as association lists with map semantics (lookup finds
the first binding; deletion removes every binding of the key; insertion of
an existing key is a no-op on a key set).  A Go channel of capacity 256
(`make(chan []byte, 256)`) is modelled as a list of frames together with a
`closed` flag; sending on a closed channel, or closing a closed channel,
panics, which is recorded in the `panicked` flag of the hub state (an
unrecovered panic kills the process, so every operation is a no-op once
`panicked` is set).  All registry operations are serialized (mutex /
single hub goroutine), so they are modelled as atomic state transformers.
-/

namespace Realtime

abbrev SessionId := Nat

-- JSON-marshalable values (`interface{}` / `json.RawMessage` payloads).
-- `unser` stands for a Go value that `json.Marshal` rejects.
mutual

inductive JValue where
  | str : String → JValue
  | obj : JObj → JValue
  | unser : JValue

inductive JObj where
  | nil : JObj
  | cons : String → JValue → JObj → JObj

end

-- Canonical serialization of a `JValue`, mirroring `json.Marshal`:
-- deterministic, fails exactly when the value contains an unserializable part.
mutual

def jser : JValue → Option String
  | .str s => some ("\"" ++ s ++ "\"")
  | .unser => none
  | .obj o =>
    match jserObj o with
    | none => none
    | some b => some ("\x7b" ++ b ++ "\x7d")

def jserObj : JObj → Option String
  | .nil => some ""
  | .cons k v rest =>
    match jser v, jserObj rest with
    | some vs, some rs =>
      some ("\"" ++ k ++ "\":" ++ vs
        ++ (match rest with | .nil => "" | .cons _ _ _ => ",") ++ rs)
    | _, _ => none

end

/-- `IncomingMessage` of realtime.go (topic, event, payload, ref). -/
structure IncomingMessage where
  topic : String
  event : String
  payload : JValue
  ref : String

/-- `OutgoingMessage` of realtime.go; `ref` is marshaled with `omitempty`. -/
structure OutgoingMessage where
  topic : String
  event : String
  payload : JValue
  ref : String

/-- `json.Marshal` of an `OutgoingMessage`: struct fields in declaration
order, `ref` omitted when empty, failure exactly when the payload fails. -/
def marshalOutgoing (m : OutgoingMessage) : Option String :=
  match jser m.payload with
  | none => none
  | some p =>
    some ("\x7b\"topic\":\"" ++ m.topic ++ "\",\"event\":\"" ++ m.event
      ++ "\",\"payload\":" ++ p
      ++ (if m.ref = "" then "" else ",\"ref\":\"" ++ m.ref ++ "\"")
      ++ "\x7d")

/-- Per-`Client` state: the buffered `send` channel (queue of marshaled
frames plus closed flag and a count of `close` calls) and the client's
`topics` set. -/
structure ClientState where
  sendQueue : List String
  closed : Bool
  closeCount : Nat
  topics : List String
deriving DecidableEq, Repr

/-- A freshly constructed client (`ServeWs`): empty queue, open channel,
no topics. -/
def defaultClient : ClientState :=
  { sendQueue := [], closed := false, closeCount := 0, topics := [] }

/-- The hub: live-client set `clients`, topic map `topics`, per-session
client structs `sess`, and the process-panic flag. -/
structure HubState where
  clients : List SessionId
  topics : List (String × List SessionId)
  sess : List (SessionId × ClientState)
  panicked : Bool
deriving DecidableEq, Repr

def getSess : List (SessionId × ClientState) → SessionId → ClientState
  | [], _ => defaultClient
  | (k, v) :: rest, c => if k = c then v else getSess rest c

def setSess : List (SessionId × ClientState) → SessionId → ClientState →
    List (SessionId × ClientState)
  | [], c, v => [(c, v)]
  | (k, w) :: rest, c, v =>
    if k = c then (c, v) :: rest else (k, w) :: setSess rest c v

def alookup : List (String × List SessionId) → String → Option (List SessionId)
  | [], _ => none
  | (k, v) :: rest, t => if k = t then some v else alookup rest t

def aset : List (String × List SessionId) → String → List SessionId →
    List (String × List SessionId)
  | [], t, v => [(t, v)]
  | (k, w) :: rest, t, v =>
    if k = t then (t, v) :: rest else (k, w) :: aset rest t v

def aremove (l : List (String × List SessionId)) (t : String) :
    List (String × List SessionId) :=
  l.filter (fun e => e.1 ≠ t)

def removeId (l : List SessionId) (c : SessionId) : List SessionId :=
  l.filter (fun x => x ≠ c)

def insertId (l : List SessionId) (c : SessionId) : List SessionId :=
  if c ∈ l then l else l ++ [c]

def insertStr (l : List String) (t : String) : List String :=
  if t ∈ l then l else l ++ [t]

def removeStr (l : List String) (t : String) : List String :=
  l.filter (fun x => x ≠ t)

/-- Capacity of each client's `send` channel (`make(chan []byte, 256)`). -/
def sendCapacity : Nat := 256

/-- `case client := <-h.register` of `Hub.Run`: `h.clients[client] = true`. -/
def register (h : HubState) (c : SessionId) : HubState :=
  if h.panicked then h
  else { h with clients := insertId h.clients c }

/-- Lines 95-100 of realtime.go (also the `phx_leave` block 218-223):
remove `c` from topic `t`'s subscriber set, deleting the entry when it
becomes empty; no-op when the topic is absent. -/
def dropFromTopic (tl : List (String × List SessionId)) (t : String)
    (c : SessionId) : List (String × List SessionId) :=
  match alookup tl t with
  | none => tl
  | some subs =>
    if removeId subs c = [] then aremove tl t else aset tl t (removeId subs c)

/-- The `for topic := range client.topics` loop of the unregister case. -/
def dropFromTopics (tl : List (String × List SessionId)) (ts : List String)
    (c : SessionId) : List (String × List SessionId) :=
  match ts with
  | [] => tl
  | t :: rest => dropFromTopics (dropFromTopic tl t c) rest c

/-- `case client := <-h.unregister` of `Hub.Run`: guarded by live-set
membership; deletes from `clients`, closes the send channel (closing a
closed channel panics), and removes the client from every topic it had
joined. -/
def unregister (h : HubState) (c : SessionId) : HubState :=
  if h.panicked then h
  else if c ∈ h.clients then
    let cs := getSess h.sess c
    if cs.closed then { h with clients := removeId h.clients c, panicked := true }
    else
      { h with
        clients := removeId h.clients c,
        sess := setSess h.sess c
          ({ cs with closed := true, closeCount := cs.closeCount + 1 }),
        topics := dropFromTopics h.topics cs.topics c }
  else h

/-- The `for client := range clients` fan-out loop of the broadcast case:
non-blocking send (`select` with `default`).  Sending on a closed channel
panics; a full queue triggers the `default` branch, which closes the
channel and deletes the client from the live set — and nothing else. -/
def fanout : HubState → List SessionId → String → HubState
  | h, [], _ => h
  | h, c :: rest, data =>
    let cs := getSess h.sess c
    if cs.closed then { h with panicked := true }
    else if cs.sendQueue.length < sendCapacity then
      let cs' := { cs with sendQueue := cs.sendQueue ++ [data] }
      fanout { h with sess := setSess h.sess c cs' } rest data
    else
      let cs' := { cs with closed := true, closeCount := cs.closeCount + 1 }
      fanout
        { h with
          sess := setSess h.sess c cs',
          clients := removeId h.clients c } rest data

/-- `case message := <-h.broadcast` of `Hub.Run` combined with
`Hub.Broadcast` (which wraps topic/event/payload into an
`OutgoingMessage` with no ref): look up the topic, marshal once, fan out.
Absent topic or marshal failure leave the state untouched. -/
def broadcast (h : HubState) (topic event : String) (payload : JValue) :
    HubState :=
  if h.panicked then h
  else
    match alookup h.topics topic with
    | none => h
    | some subs =>
      match marshalOutgoing
          ({ topic := topic, event := event, payload := payload, ref := "" }) with
      | none => h
      | some data => fanout h subs data

/-- The mutex-guarded registry mutation of the `phx_join` case
(lines 167-173): create the topic entry if absent, add the client to the
topic's set and the topic to the client's set. -/
def joinOp (h : HubState) (c : SessionId) (t : String) : HubState :=
  let subs := (alookup h.topics t).getD []
  let cs := getSess h.sess c
  { h with
    topics := aset h.topics t (insertId subs c),
    sess := setSess h.sess c ({ cs with topics := insertStr cs.topics t }) }

/-- The mutex-guarded registry mutation of the `phx_leave` case
(lines 217-224). -/
def leaveOp (h : HubState) (c : SessionId) (t : String) : HubState :=
  let cs := getSess h.sess c
  { h with
    topics := dropFromTopic h.topics t c,
    sess := setSess h.sess c ({ cs with topics := removeStr cs.topics t }) }

/-- `Client.sendJSON`: marshal, silently drop on failure, otherwise a
blocking send on the client's own channel (panics if the channel is
closed; otherwise the frame is eventually buffered, modelled as append). -/
def sendJSON (h : HubState) (c : SessionId) (m : OutgoingMessage) : HubState :=
  match marshalOutgoing m with
  | none => h
  | some data =>
    let cs := getSess h.sess c
    if cs.closed then { h with panicked := true }
    else
      let cs' := { cs with sendQueue := cs.sendQueue ++ [data] }
      { h with sess := setSess h.sess c cs' }

/-- The first `phx_join` reply (lines 176-189); object keys listed in the
sorted order `json.Marshal` uses for Go maps. -/
def joinReply (topic ref sessionID : String) : OutgoingMessage :=
  { topic := topic, event := "phx_reply", ref := ref,
    payload := .obj (.cons "response"
      (.obj (.cons "event" (.str "INSERT")
        (.cons "filter" (.str ("session_id=eq." ++ sessionID))
        (.cons "schema" (.str "public")
        (.cons "table" (.str "messages") .nil)))))
      (.cons "status" (.str "ok") .nil)) }

/-- The second `phx_join` reply (lines 193-202). -/
def systemReply (topic channel : String) : OutgoingMessage :=
  { topic := topic, event := "system", ref := "",
    payload := .obj (.cons "channel" (.str channel)
      (.cons "extension" (.str "postgres_changes")
      (.cons "message" (.str "Subscribed to PostgreSQ")
      (.cons "status" (.str "ok") .nil)))) }

/-- The `heartbeat` reply (lines 205-213): reserved control topic
`"phoenix"`, status ok, echoed ref. -/
def heartbeatReply (ref : String) : OutgoingMessage :=
  { topic := "phoenix", event := "phx_reply", ref := ref,
    payload := .obj (.cons "response" (.obj .nil)
      (.cons "status" (.str "ok") .nil)) }

/-- The `phx_leave` reply (lines 227-235). -/
def leaveReply (topic ref : String) : OutgoingMessage :=
  { topic := topic, event := "phx_reply", ref := ref,
    payload := .obj (.cons "response" (.obj .nil)
      (.cons "status" (.str "ok") .nil)) }

/-- Go string slicing `s[n:]`: defined for `n ≤ len(s)`, a runtime panic
(slice bounds out of range) otherwise. -/
def goSliceFrom (s : String) (n : Nat) : Option String :=
  if n ≤ s.length then some (s.drop n) else none

/-- `Client.handleMessage` (lines 164-238).  The `phx_join` case performs
the registry mutation first, then slices the topic at
`len("realtime:messages:")` and `len("realtime:")` — each slice panics
when the topic is shorter than the prefix. -/
def handleMessage (h : HubState) (c : SessionId) (m : IncomingMessage) :
    HubState :=
  if h.panicked then h
  else if m.event = "phx_join" then
    let h1 := joinOp h c m.topic
    match goSliceFrom m.topic ("realtime:messages:".length) with
    | none => { h1 with panicked := true }
    | some sessionID =>
      let h2 := sendJSON h1 c (joinReply m.topic m.ref sessionID)
      match goSliceFrom m.topic ("realtime:".length) with
      | none => { h2 with panicked := true }
      | some channel => sendJSON h2 c (systemReply m.topic channel)
  else if m.event = "heartbeat" then
    sendJSON h c (heartbeatReply m.ref)
  else if m.event = "phx_leave" then
    let h1 := leaveOp h c m.topic
    sendJSON h1 c (leaveReply m.topic m.ref)
  else h

/-- A raw transport frame, as seen by `json.Unmarshal` in `readPump`:
either well-formed (decoding to an envelope) or malformed. -/
inductive RawFrame where
  | wellFormed : IncomingMessage → RawFrame
  | malformed : RawFrame

def decodeFrame : RawFrame → Option IncomingMessage
  | .wellFormed m => some m
  | .malformed => none

/-- One observable event of the inbound pump loop. -/
inductive ReadEvent where
  | frame : RawFrame → ReadEvent
  | transportError : ReadEvent

/-- One iteration of `Client.readPump` (lines 145-161).  The returned
`Bool` is true when the loop breaks (deferred unregister has run).  A
frame that fails to decode is logged and skipped: same state, loop
continues. -/
def readStep (h : HubState) (c : SessionId) : ReadEvent → HubState × Bool
  | .transportError => (unregister h c, true)
  | .frame f =>
    match decodeFrame f with
    | none => (h, false)
    | some m => (handleMessage h c m, false)

/-- `NewHub`: empty registry, no sessions, process alive. -/
def initialHub : HubState :=
  { clients := [], topics := [], sess := [], panicked := false }

/-- Registry states reachable from the empty hub by the five serialized
registry operations. -/
inductive Reachable : HubState → Prop where
  | init : Reachable initialHub
  | registerStep : ∀ {h} (c : SessionId), Reachable h → Reachable (register h c)
  | unregisterStep : ∀ {h} (c : SessionId), Reachable h →
      Reachable (unregister h c)
  | joinStep : ∀ {h} (c : SessionId) (t : String), Reachable h →
      Reachable (joinOp h c t)
  | leaveStep : ∀ {h} (c : SessionId) (t : String), Reachable h →
      Reachable (leaveOp h c t)
  | publishStep : ∀ {h} (t e : String) (p : JValue), Reachable h →
      Reachable (broadcast h t e p)

/-- `n` successive publishes of the same event to the same topic. -/
def repeatBroadcast : Nat → String → String → JValue → HubState → HubState
  | 0, _, _, _, h => h
  | n + 1, t, e, p, h => repeatBroadcast n t e p (broadcast h t e p)

/-- The frame `Publish(t, e, p)` marshals once and fans out (empty string
when the payload fails to serialize, which `Publish` guards against). -/
def mkFrame (t e : String) (p : JValue) : String :=
  (marshalOutgoing ({ topic := t, event := e, payload := p, ref := "" })).getD ""

/-- The state after the successful non-blocking enqueue branch of the
fan-out loop for one client: only that client's queue is extended. -/
def enqueueTo (h : HubState) (c : SessionId) (d : String) : HubState :=
  let cs := getSess h.sess c
  let cs' := { cs with sendQueue := cs.sendQueue ++ [d] }
  { h with sess := setSess h.sess c cs' }

/-- The state after the `default` (queue full) branch of the fan-out loop
for one client: its channel is closed and it leaves the live set. -/
def evictFrom (h : HubState) (c : SessionId) : HubState :=
  let cs := getSess h.sess c
  let cs' := { cs with closed := true, closeCount := cs.closeCount + 1 }
  { h with sess := setSess h.sess c cs', clients := removeId h.clients c }

/-- Concrete state: sessions 1 and 2 registered and both subscribed to
topic `"t"`. -/
def hubPair : HubState :=
  joinOp (joinOp (register (register initialHub 1) 2) 1 "t") 2 "t"

/-- `hubPair` with session 2 additionally subscribed to topic `"u"`. -/
def hubSlow : HubState := joinOp hubPair 2 "u"

/-- `hubSlow` after 256 publishes to `"u"`: session 2's queue is full,
session 1's is empty. -/
def hubSlowFull : HubState := repeatBroadcast 256 "u" "e" (.obj .nil) hubSlow

/-- One further publish, to `"t"`, against the full queue of session 2. -/
def hubSlowAfter : HubState := broadcast hubSlowFull "t" "ev" (.str "p")

/-- Concrete state: only session 2, subscribed to topic `"t"`. -/
def hubSolo : HubState := joinOp (register initialHub 2) 2 "t"

/-- `hubSolo` after 256 publishes to `"t"`: session 2's queue is full. -/
def hubSoloFull : HubState := repeatBroadcast 256 "t" "e" (.obj .nil) hubSolo

/-- One further publish to `"t"`, evicting session 2. -/
def hubSoloAfter : HubState := broadcast hubSoloFull "t" "e" (.obj .nil)

/-- A join envelope whose topic is shorter than `"realtime:messages:"`. -/
def shortJoinMsg : IncomingMessage :=
  { topic := "x", event := "phx_join", payload := .obj .nil, ref := "r" }

/-- Dispatching `shortJoinMsg` on a registered session. -/
def hubShortJoin : HubState :=
  handleMessage (register initialHub 1) 1 shortJoinMsg

/-- A heartbeat envelope with correlation token `"R1"`. -/
def hbMsg : IncomingMessage :=
  { topic := "anything", event := "heartbeat", payload := .obj .nil,
    ref := "R1" }

/-! ## Basic lemmas about the association-list maps -/

theorem getSess_setSess_self (s : List (SessionId × ClientState))
    (c : SessionId) (v : ClientState) : getSess (setSess s c v) c = v := by
  induction s with
  | nil => simp [setSess, getSess]
  | cons p rest ih =>
    obtain ⟨k, w⟩ := p
    by_cases hk : k = c
    · simp [setSess, getSess, hk]
    · simp [setSess, getSess, hk, ih]

theorem getSess_setSess_ne (s : List (SessionId × ClientState))
    (c c' : SessionId) (v : ClientState) (h : c' ≠ c) :
    getSess (setSess s c v) c' = getSess s c' := by
  induction s with
  | nil => simp [setSess, getSess, Ne.symm h]
  | cons p rest ih =>
    obtain ⟨k, w⟩ := p
    by_cases hk : k = c
    · subst hk
      simp [setSess, getSess, Ne.symm h]
    · simp only [setSess, if_neg hk, getSess]
      by_cases hk' : k = c'
      · simp [hk']
      · simp [hk', ih]

theorem alookup_mem (l : List (String × List SessionId)) (t : String)
    (subs : List SessionId) (h : alookup l t = some subs) : (t, subs) ∈ l := by
  induction l with
  | nil => simp [alookup] at h
  | cons p rest ih =>
    obtain ⟨k, v⟩ := p
    by_cases hk : k = t
    · subst hk
      simp [alookup] at h
      simp [h]
    · simp [alookup, hk] at h
      simp [ih h]

theorem mem_aset (l : List (String × List SessionId)) (t : String)
    (v : List SessionId) (e : String × List SessionId)
    (h : e ∈ aset l t v) : e ∈ l ∨ e = (t, v) := by
  induction l with
  | nil => simp [aset] at h; simp [h]
  | cons p rest ih =>
    obtain ⟨k, w⟩ := p
    by_cases hk : k = t
    · simp [aset, hk] at h
      rcases h with h | h
      · exact Or.inr h
      · exact Or.inl (List.mem_cons_of_mem _ h)
    · simp [aset, hk] at h
      rcases h with h | h
      · exact Or.inl (by simp [h])
      · rcases ih h with h' | h'
        · exact Or.inl (List.mem_cons_of_mem _ h')
        · exact Or.inr h'

theorem mem_aremove (l : List (String × List SessionId)) (t : String)
    (e : String × List SessionId) (h : e ∈ aremove l t) : e ∈ l :=
  List.mem_of_mem_filter h

theorem alookup_aset_self (l : List (String × List SessionId)) (t : String)
    (v : List SessionId) : alookup (aset l t v) t = some v := by
  induction l with
  | nil => simp [aset, alookup]
  | cons p rest ih =>
    obtain ⟨k, w⟩ := p
    by_cases hk : k = t
    · simp [aset, hk, alookup]
    · simp [aset, hk, alookup, ih]

theorem alookup_aremove_self (l : List (String × List SessionId))
    (t : String) : alookup (aremove l t) t = none := by
  induction l with
  | nil => simp [aremove, alookup]
  | cons p rest ih =>
    obtain ⟨k, w⟩ := p
    by_cases hk : k = t
    · simpa [aremove, hk, alookup] using ih
    · simpa [aremove, hk, alookup] using ih

theorem not_mem_removeId (l : List SessionId) (c : SessionId) :
    c ∉ removeId l c := by
  simp [removeId, List.mem_filter]

theorem not_mem_removeStr (l : List String) (t : String) :
    t ∉ removeStr l t := by
  simp [removeStr, List.mem_filter]

theorem removeId_eq_nil_of_all (l : List SessionId) (c : SessionId)
    (h : ∀ x ∈ l, x = c) : removeId l c = [] := by
  simp only [removeId, List.filter_eq_nil_iff]
  intro x hx
  simp [h x hx]

theorem insertId_ne_nil (l : List SessionId) (c : SessionId) :
    insertId l c ≠ [] := by
  unfold insertId
  split_ifs with hc
  · intro he
    rw [he] at hc
    simp at hc
  · simp

/-! ## The no-empty-topics invariant (claim C4) -/

theorem dropFromTopic_nonempty (tl : List (String × List SessionId))
    (t : String) (c : SessionId) (hinv : ∀ e ∈ tl, e.2 ≠ []) :
    ∀ e ∈ dropFromTopic tl t c, e.2 ≠ [] := by
  unfold dropFromTopic
  cases hl : alookup tl t with
  | none => exact hinv
  | some subs =>
    by_cases hs : removeId subs c = []
    · simp only [hs, if_pos rfl]
      intro e he
      exact hinv e (mem_aremove tl t e he)
    · simp only [if_neg hs]
      intro e he
      rcases mem_aset tl t (removeId subs c) e he with h' | h'
      · exact hinv e h'
      · rw [h']
        exact hs

theorem dropFromTopics_nonempty (ts : List String)
    (tl : List (String × List SessionId)) (c : SessionId)
    (hinv : ∀ e ∈ tl, e.2 ≠ []) :
    ∀ e ∈ dropFromTopics tl ts c, e.2 ≠ [] := by
  induction ts generalizing tl with
  | nil => exact hinv
  | cons t rest ih =>
    exact ih (dropFromTopic tl t c) (dropFromTopic_nonempty tl t c hinv)

theorem fanout_topics_eq (subs : List SessionId) (h : HubState) (d : String) :
    (fanout h subs d).topics = h.topics := by
  induction subs generalizing h with
  | nil => rfl
  | cons c rest ih =>
    simp only [fanout]
    split_ifs with h1 h2
    · rfl
    · rw [ih]
    · rw [ih]

theorem reachable_topics_nonempty {h : HubState} (hr : Reachable h) :
    ∀ e ∈ h.topics, e.2 ≠ [] := by
  induction hr with
  | init => simp [initialHub]
  | registerStep c hr ih =>
    unfold register
    split_ifs <;> exact ih
  | unregisterStep c hr ih =>
    rename_i h'
    unfold unregister
    split_ifs with h1 h2
    · exact ih
    · by_cases h3 : (getSess h'.sess c).closed = true
      · simp only [h3, ite_true, if_true]
        exact ih
      · simp only [eq_false_of_ne_true h3, ite_false, if_false]
        exact dropFromTopics_nonempty _ _ _ ih
    · exact ih
  | joinStep c t hr ih =>
    rename_i h'
    simp only [joinOp]
    intro e he
    rcases mem_aset h'.topics t
        (insertId ((alookup h'.topics t).getD []) c) e he with h1 | h1
    · exact ih e h1
    · rw [h1]
      exact insertId_ne_nil _ _
  | leaveStep c t hr ih =>
    rename_i h'
    simp only [leaveOp]
    exact dropFromTopic_nonempty _ _ _ ih
  | publishStep t e p hr ih =>
    rename_i h'
    unfold broadcast
    split_ifs with h1
    · exact ih
    · cases alookup h'.topics t with
      | none => exact ih
      | some subs =>
        cases marshalOutgoing
            ({ topic := t, event := e, payload := p, ref := "" }) with
        | none => exact ih
        | some data =>
          simp only
          rw [fanout_topics_eq]
          exact ih

/-- Claim C4: in every registry state reachable from the initial empty
registry by any sequence of RegisterSession, UnregisterSession, Join,
Leave and Publish operations, every topic name present in the topic map
has a non-empty subscriber set. -/
theorem no_empty_topics {h : HubState} (hr : Reachable h) (t : String)
    (subs : List SessionId) (hl : alookup h.topics t = some subs) :
    subs ≠ [] :=
  reachable_topics_nonempty hr (t, subs) (alookup_mem h.topics t subs hl)

/-- Witness for claim C4 at the concrete reachable state
`joinOp initialHub 1 "a"`. -/
theorem no_empty_topics_check : ([1] : List SessionId) ≠ [] :=
  no_empty_topics (Reachable.joinStep 1 "a" Reachable.init) "a" [1] (by decide)

/-! ## Fan-out delivery (claim C5) -/

theorem marshalOutgoing_eq_mkFrame (t e : String) (p : JValue) (pd : String)
    (hser : jser p = some pd) :
    marshalOutgoing ({ topic := t, event := e, payload := p, ref := "" }) =
      some (mkFrame t e p) := by
  simp [marshalOutgoing, mkFrame, hser]

theorem fanout_spec (subs : List SessionId) : ∀ (h : HubState) (d : String),
    subs.Nodup →
    (∀ c ∈ subs, (getSess h.sess c).closed = false ∧
      (getSess h.sess c).sendQueue.length < sendCapacity) →
    (∀ c ∈ subs, getSess (fanout h subs d).sess c =
      { getSess h.sess c with
        sendQueue := (getSess h.sess c).sendQueue ++ [d] }) ∧
    (∀ c, c ∉ subs → getSess (fanout h subs d).sess c = getSess h.sess c) ∧
    (fanout h subs d).clients = h.clients ∧
    (fanout h subs d).topics = h.topics ∧
    (fanout h subs d).panicked = h.panicked := by
  induction subs with
  | nil =>
    intro h d _ _
    exact ⟨by simp, fun c _ => rfl, rfl, rfl, rfl⟩
  | cons c0 rest ih =>
    intro h d hnd hall
    obtain ⟨hcl, hlen⟩ := hall c0 (List.mem_cons_self c0 rest)
    have hnotin : c0 ∉ rest := (List.nodup_cons.mp hnd).1
    have hndr : rest.Nodup := (List.nodup_cons.mp hnd).2
    have hstep : fanout h (c0 :: rest) d = fanout (enqueueTo h c0 d) rest d := by
      simp [fanout, enqueueTo, hcl, hlen]
    have hget : ∀ c', c' ≠ c0 →
        getSess (enqueueTo h c0 d).sess c' = getSess h.sess c' :=
      fun c' hne => getSess_setSess_ne h.sess c0 c' _ hne
    have hgetSelf : getSess (enqueueTo h c0 d).sess c0 =
        { getSess h.sess c0 with
          sendQueue := (getSess h.sess c0).sendQueue ++ [d] } :=
      getSess_setSess_self h.sess c0 _
    have hall1 : ∀ c ∈ rest,
        (getSess (enqueueTo h c0 d).sess c).closed = false ∧
        (getSess (enqueueTo h c0 d).sess c).sendQueue.length < sendCapacity := by
      intro c hc
      have hne : c ≠ c0 := fun he => hnotin (he ▸ hc)
      rw [hget c hne]
      exact hall c (List.mem_cons_of_mem _ hc)
    obtain ⟨ih1, ih2, ih3, ih4, ih5⟩ := ih (enqueueTo h c0 d) d hndr hall1
    refine ⟨?_, ?_, ?_, ?_, ?_⟩
    · intro c hc
      rw [hstep]
      rcases List.mem_cons.mp hc with rfl | hc'
      · rw [ih2 c hnotin, hgetSelf]
      · rw [ih1 c hc', hget c (fun he => hnotin (he ▸ hc'))]
    · intro c hc
      rw [List.mem_cons] at hc
      push_neg at hc
      obtain ⟨hne, hrest⟩ := hc
      rw [hstep, ih2 c hrest]
      exact hget c hne
    · rw [hstep, ih3]
      rfl
    · rw [hstep, ih4]
      rfl
    · rw [hstep, ih5]
      rfl

/-- Claim C5: for every topic `t` whose current subscribers all have open,
non-full outbound queues, publishing a serializable payload `p` with event
`e` to `t` enqueues exactly one frame `mkFrame t e p` onto each
subscriber's queue, and leaves the session state of every session not
subscribed to `t` unchanged. -/
theorem publish_fanout_delivery (h : HubState) (t e : String) (p : JValue)
    (pd : String) (hp : h.panicked = false) (hser : jser p = some pd)
    (hnd : ((alookup h.topics t).getD []).Nodup)
    (hall : ∀ c ∈ (alookup h.topics t).getD [],
      (getSess h.sess c).closed = false ∧
      (getSess h.sess c).sendQueue.length < sendCapacity) :
    (∀ c ∈ (alookup h.topics t).getD [],
      (getSess (broadcast h t e p).sess c).sendQueue =
        (getSess h.sess c).sendQueue ++ [mkFrame t e p]) ∧
    (∀ c, c ∉ (alookup h.topics t).getD [] →
      getSess (broadcast h t e p).sess c = getSess h.sess c) := by
  have hm := marshalOutgoing_eq_mkFrame t e p pd hser
  unfold broadcast
  rw [hp]
  simp only [Bool.false_eq_true, if_false, ite_false]
  cases hl : alookup h.topics t with
  | none =>
    refine ⟨fun c hc => ?_, fun c _ => rfl⟩
    simp at hc
  | some subs =>
    rw [hm]
    simp only [Option.getD_some]
    obtain ⟨f1, f2, _, _, _⟩ := fanout_spec subs h (mkFrame t e p)
      (by simpa [hl] using hnd) (by simpa [hl] using hall)
    refine ⟨fun c hc => ?_, fun c hc => ?_⟩
    · rw [f1 c hc]
    · exact f2 c hc

/-- Witness for claim C5 at the concrete two-subscriber hub `hubPair`. -/
theorem publish_fanout_delivery_check :
    (getSess (broadcast hubPair "t" "ev" (.str "p")).sess 1).sendQueue =
      (getSess hubPair.sess 1).sendQueue ++ [mkFrame "t" "ev" (.str "p")] := by
  have h := publish_fanout_delivery hubPair "t" "ev" (.str "p") "\"p\""
    (by decide) (by decide) (by decide) (by decide)
  exact h.1 1 (by decide)

/-! ## Join/leave symmetry (claim C6) -/

/-- Claim C6: for every session `s` and topic `t`, performing
`Join(s, t)` and then `Leave(s, t)` leaves `t` absent from `s`'s
joined-topic set and `s` absent from `t`'s subscriber set; and if `t` had
no subscribers other than `s`, the topic entry itself is absent from the
registry afterwards. -/
theorem join_leave_symmetry (h : HubState) (s : SessionId) (t : String) :
    t ∉ (getSess (leaveOp (joinOp h s t) s t).sess s).topics ∧
    s ∉ (alookup (leaveOp (joinOp h s t) s t).topics t).getD [] ∧
    ((∀ x ∈ (alookup h.topics t).getD [], x = s) →
      alookup (leaveOp (joinOp h s t) s t).topics t = none) := by
  refine ⟨?_, ?_, ?_⟩
  · simp only [leaveOp, joinOp]
    rw [getSess_setSess_self]
    exact not_mem_removeStr _ t
  · simp only [leaveOp, joinOp, dropFromTopic, alookup_aset_self]
    by_cases hz :
        removeId (insertId ((alookup h.topics t).getD []) s) s = []
    · rw [if_pos hz, alookup_aremove_self]
      simp
    · rw [if_neg hz, alookup_aset_self]
      simp only [Option.getD_some]
      exact not_mem_removeId _ s
  · intro hall
    have hall' : ∀ x ∈ insertId ((alookup h.topics t).getD []) s, x = s := by
      intro x hx
      unfold insertId at hx
      split_ifs at hx
      · exact hall x hx
      · rcases List.mem_append.mp hx with h' | h'
        · exact hall x h'
        · simpa using h'
    have hz : removeId (insertId ((alookup h.topics t).getD []) s) s = [] :=
      removeId_eq_nil_of_all _ s hall'
    simp only [leaveOp, joinOp, dropFromTopic, alookup_aset_self, hz,
      if_true]
    exact alookup_aremove_self _ t

/-- Witness for claim C6 at the initially empty hub. -/
theorem join_leave_symmetry_check :
    "a" ∉ (getSess (leaveOp (joinOp initialHub 1 "a") 1 "a").sess 1).topics ∧
    1 ∉ (alookup (leaveOp (joinOp initialHub 1 "a") 1 "a").topics "a").getD [] ∧
    alookup (leaveOp (joinOp initialHub 1 "a") 1 "a").topics "a" = none := by
  obtain ⟨h1, h2, h3⟩ := join_leave_symmetry initialHub 1 "a"
  exact ⟨h1, h2, h3 (by decide)⟩

/-! ## Heartbeat echo (claim C7) -/

/-- Claim C7: for every inbound envelope with event `"heartbeat"` and
correlation token `R`, regardless of its topic field, dispatching it on a
live session enqueues exactly one reply frame — the marshaled
`heartbeatReply R`, which carries the reserved control topic `"phoenix"`,
status `"ok"` and token `R` — and changes no registry or subscription
state. -/
theorem heartbeat_echo (h : HubState) (c : SessionId) (m : IncomingMessage)
    (hev : m.event = "heartbeat") (hp : h.panicked = false)
    (hc : (getSess h.sess c).closed = false) :
    (getSess (handleMessage h c m).sess c).sendQueue =
      (getSess h.sess c).sendQueue ++
        [(marshalOutgoing (heartbeatReply m.ref)).getD ""] ∧
    (handleMessage h c m).clients = h.clients ∧
    (handleMessage h c m).topics = h.topics ∧
    (getSess (handleMessage h c m).sess c).topics =
      (getSess h.sess c).topics ∧
    (∀ c', c' ≠ c →
      getSess (handleMessage h c m).sess c' = getSess h.sess c') := by
  have hred : handleMessage h c m = sendJSON h c (heartbeatReply m.ref) := by
    unfold handleMessage
    rw [hp, hev]
    simp
  cases hmm : marshalOutgoing (heartbeatReply m.ref) with
  | none =>
    exfalso
    unfold marshalOutgoing at hmm
    rw [show jser (heartbeatReply m.ref).payload =
        some "\x7b\"response\":\x7b\x7d,\"status\":\"ok\"\x7d" from rfl] at hmm
    simp at hmm
  | some d =>
    rw [hred]
    simp only [sendJSON, hmm, hc, Bool.false_eq_true, if_false, ite_false]
    refine ⟨?_, by trivial, by trivial, ?_, ?_⟩
    · rw [getSess_setSess_self]
      simp
    · rw [getSess_setSess_self]
    · intro c' hne
      exact getSess_setSess_ne h.sess c c' _ hne

/-- Witness for claim C7: heartbeat with token `"R1"` on session 1. -/
theorem heartbeat_echo_check :
    (getSess (handleMessage (register initialHub 1) 1 hbMsg).sess 1).sendQueue =
      (getSess (register initialHub 1).sess 1).sendQueue ++
        [(marshalOutgoing (heartbeatReply "R1")).getD ""] := by
  have h := heartbeat_echo (register initialHub 1) 1 hbMsg
    (by decide) (by decide) (by decide)
  exact h.1

/-! ## Decode failure is non-fatal (claim C8) -/

/-- Claim C8: an inbound frame that fails to decode as an envelope is
skipped — the inbound pump keeps the hub state unchanged, enqueues no
reply, and does not terminate the session's read loop. -/
theorem decode_failure_skips_frame (h : HubState) (c : SessionId) :
    readStep h c (.frame .malformed) = (h, false) := rfl

/-! ## Marshal failure drops the broadcast atomically (claim C9) -/

/-- Claim C9: a publish whose outgoing envelope fails to serialize leaves
the hub state — every queue, the live-session set and all topic
subscriber sets — completely unchanged. -/
theorem publish_marshal_failure_atomic (h : HubState) (t e : String)
    (p : JValue) (hser : jser p = none) : broadcast h t e p = h := by
  unfold broadcast
  split_ifs with h1
  · rfl
  · cases hl : alookup h.topics t with
    | none => rfl
    | some subs =>
      have hm : marshalOutgoing
          ({ topic := t, event := e, payload := p, ref := "" }) = none := by
        simp [marshalOutgoing, hser]
      simp [hm]

/-- Witness for claim C9: an unserializable publish to `hubPair`. -/
theorem publish_marshal_failure_atomic_check :
    broadcast hubPair "t" "e" JValue.unser = hubPair :=
  publish_marshal_failure_atomic hubPair "t" "e" JValue.unser rfl

/-! ## Single serialization per fan-out (claim C10) -/

theorem enqueueTo_queue_self (h : HubState) (c : SessionId) (d : String) :
    (getSess (enqueueTo h c d).sess c).sendQueue =
      (getSess h.sess c).sendQueue ++ [d] := by
  simp [enqueueTo, getSess_setSess_self]

theorem enqueueTo_sess_ne (h : HubState) (c c' : SessionId) (d : String)
    (hne : c' ≠ c) : getSess (enqueueTo h c d).sess c' = getSess h.sess c' :=
  getSess_setSess_ne h.sess c c' _ hne

theorem evictFrom_queue_self (h : HubState) (c : SessionId) :
    (getSess (evictFrom h c).sess c).sendQueue =
      (getSess h.sess c).sendQueue := by
  simp [evictFrom, getSess_setSess_self]

theorem evictFrom_sess_ne (h : HubState) (c c' : SessionId)
    (hne : c' ≠ c) : getSess (evictFrom h c).sess c' = getSess h.sess c' :=
  getSess_setSess_ne h.sess c c' _ hne

theorem singleton_eq_replicate {x d : String} {k : Nat}
    (h : [x] = List.replicate k d) : x = d := by
  cases k with
  | zero => simp at h
  | succ k =>
    rw [List.replicate_succ] at h
    simp only [List.cons.injEq] at h
    exact h.1

theorem fanout_queue_replicate (subs : List SessionId) :
    ∀ (h : HubState) (d : String) (c : SessionId),
    ∃ k, (getSess (fanout h subs d).sess c).sendQueue =
      (getSess h.sess c).sendQueue ++ List.replicate k d := by
  induction subs with
  | nil =>
    intro h d c
    exact ⟨0, by simp [fanout]⟩
  | cons c0 rest ih =>
    intro h d c
    by_cases h1 : (getSess h.sess c0).closed = true
    · refine ⟨0, ?_⟩
      have hstep : fanout h (c0 :: rest) d = { h with panicked := true } := by
        simp [fanout, h1]
      rw [hstep]
      simp
    · rw [Bool.not_eq_true] at h1
      by_cases h2 : (getSess h.sess c0).sendQueue.length < sendCapacity
      · have hstep : fanout h (c0 :: rest) d =
            fanout (enqueueTo h c0 d) rest d := by
          simp [fanout, enqueueTo, h1, h2]
        obtain ⟨k, hk⟩ := ih (enqueueTo h c0 d) d c
        by_cases hc : c = c0
        · subst hc
          refine ⟨k + 1, ?_⟩
          rw [hstep, hk, enqueueTo_queue_self]
          simp [List.replicate_succ]
        · refine ⟨k, ?_⟩
          rw [hstep, hk, enqueueTo_sess_ne h c0 c d hc]
      · have hstep : fanout h (c0 :: rest) d =
            fanout (evictFrom h c0) rest d := by
          simp [fanout, evictFrom, h1, h2]
        obtain ⟨k, hk⟩ := ih (evictFrom h c0) d c
        by_cases hc : c = c0
        · subst hc
          refine ⟨k, ?_⟩
          rw [hstep, hk, evictFrom_queue_self]
        · refine ⟨k, ?_⟩
          rw [hstep, hk, evictFrom_sess_ne h c0 c hc]

/-- Claim C10: within a single publish fan-out, any two subscribers whose
queues each grew by exactly one frame received identical bytes — the
envelope is serialized once before the subscriber iteration, so no two
subscribers of the same publish can observe differing frames. -/
theorem publish_single_serialization (h : HubState) (t e : String)
    (p : JValue) (c1 c2 : SessionId) (d1 d2 : String)
    (h1 : (getSess (broadcast h t e p).sess c1).sendQueue =
      (getSess h.sess c1).sendQueue ++ [d1])
    (h2 : (getSess (broadcast h t e p).sess c2).sendQueue =
      (getSess h.sess c2).sendQueue ++ [d2]) :
    d1 = d2 := by
  by_cases hp : h.panicked = true
  · exfalso
    have hb : broadcast h t e p = h := by
      unfold broadcast
      rw [if_pos hp]
    rw [hb] at h1
    have := congrArg List.length h1
    simp at this
  · rw [Bool.not_eq_true] at hp
    cases hl : alookup h.topics t with
    | none =>
      exfalso
      have hb : broadcast h t e p = h := by
        unfold broadcast
        rw [hp, hl]
        simp
      rw [hb] at h1
      have := congrArg List.length h1
      simp at this
    | some subs =>
      cases hmm : marshalOutgoing
          ({ topic := t, event := e, payload := p, ref := "" }) with
      | none =>
        exfalso
        have hb : broadcast h t e p = h := by
          unfold broadcast
          rw [hp, hl]
          simp [hmm]
        rw [hb] at h1
        have := congrArg List.length h1
        simp at this
      | some data =>
        have hb : broadcast h t e p = fanout h subs data := by
          unfold broadcast
          rw [hp, hl]
          simp [hmm]
        rw [hb] at h1 h2
        obtain ⟨k1, hk1⟩ := fanout_queue_replicate subs h data c1
        obtain ⟨k2, hk2⟩ := fanout_queue_replicate subs h data c2
        rw [h1] at hk1
        rw [h2] at hk2
        have e1 : [d1] = List.replicate k1 data := List.append_cancel_left hk1
        have e2 : [d2] = List.replicate k2 data := List.append_cancel_left hk2
        rw [singleton_eq_replicate e1, singleton_eq_replicate e2]

/-- Witness for claim C10 at the concrete two-subscriber hub `hubPair`:
both subscribers received the frame `mkFrame "t" "ev" (.str "p")`. -/
theorem publish_single_serialization_check :
    mkFrame "t" "ev" (.str "p") = mkFrame "t" "ev" (.str "p") :=
  publish_single_serialization hubPair "t" "ev" (.str "p") 1 2
    (mkFrame "t" "ev" (.str "p")) (mkFrame "t" "ev" (.str "p"))
    (by decide) (by decide)

/-! ## Slow-consumer eviction does not leave the topic maps
(claims C1 and C2 — the code deviates from the specified behavior) -/

set_option maxRecDepth 1000000

/-- Claim C1 (code evaluation at the failing input): sessions 1 and 2 are
subscribed to topic `"t"`, session 2 also to `"u"`, and 2's queue is full.
Publishing to `"t"` still delivers the frame to 1, closes 2's queue and
removes 2 from the live set — but, contrary to the claim, 2 stays in the
subscriber sets of both `"t"` and `"u"`. -/
theorem slow_consumer_eviction_keeps_topic_membership :
    hubSlowAfter.panicked = false ∧
    (1 : SessionId) ∈ hubSlowAfter.clients ∧
    (getSess hubSlowAfter.sess 1).sendQueue = [mkFrame "t" "ev" (.str "p")] ∧
    (2 : SessionId) ∉ hubSlowAfter.clients ∧
    (getSess hubSlowAfter.sess 2).closed = true ∧
    (getSess hubSlowAfter.sess 2).closeCount = 1 ∧
    (2 : SessionId) ∈ (alookup hubSlowAfter.topics "t").getD [] ∧
    (2 : SessionId) ∈ (alookup hubSlowAfter.topics "u").getD [] := by
  decide

/-- Claim C2 (code evaluation at the failing input): the registry-op
sequence register 2, join 2 "t", 257 publishes to "t" closes session 2's
queue exactly once and removes it from the live set, but — contrary to the
claim — leaves it in topic "t"'s subscriber set. -/
theorem eviction_leaves_stale_subscription :
    (2 : SessionId) ∉ hubSoloAfter.clients ∧
    (getSess hubSoloAfter.sess 2).closed = true ∧
    (getSess hubSoloAfter.sess 2).closeCount = 1 ∧
    alookup hubSoloAfter.topics "t" = some [2] := by
  decide

/-! ## Short-topic join is an out-of-bounds panic (claim C3 — the code
deviates from the specified behavior) -/

/-- Claim C3 (code evaluation at the failing input): dispatching a join
whose topic `"x"` is shorter than the fixed prefix
`"realtime:messages:"` panics (Go slice bounds out of range on
`msg.Topic[18:]`) instead of failing safely with an empty filter — and
the registry mutation has already happened by then. -/
theorem short_topic_join_panics :
    hubShortJoin.panicked = true ∧
    (1 : SessionId) ∈ (alookup hubShortJoin.topics "x").getD [] := by
  decide

end Realtime
